import Mathlib

/-!
Verification of the FlightTicker search-orchestration and ranking engine.

This file is a shallow embedding, in Lean 4, of the core data model and the
operations of the repository:

* `src/flight_ticker/domain/models.py` — the domain models
  (`FlightSegment`, `FlightOffer`, `SearchCriteria`, `SearchResult`);
* `src/flight_ticker/application/services.py` — the search pipeline
  (`FlightSearchService.search`, `_deduplicate_offers`, `_apply_filters`);
* `src/flight_ticker/infrastructure/ai/scoring_service.py` — the scoring and
  ranking engine (`AIFlightScoringService`);
* `src/flight_ticker/infrastructure/strategies/split_tickets.py` — the
  split-ticket strategy (`_combine_legs`, `_generate_hub_combinations`);
* `src/flight_ticker/infrastructure/strategies/flexible_dates.py` and
  `src/application/services/flight_strategy_service.py` — date expansion, plus
  the second (duplicated) code base's `_remove_duplicates`.

Python floats are embedded as exact rationals (`ℚ`); machine-float rounding is
not modelled.  Python's stable `sorted` is embedded as `List.insertionSort`
(a stable sort) over the same key order.  Python `Optional` values become
`Option`; Python exceptions become `Except`.  `async` fan-out is embedded by
passing the list of settled per-task results (an exception result becomes
`none`) to the merging code, which is otherwise translated statement by
statement.
-/

/-- One flight leg, from `FlightSegment` in `domain/models.py`.
Timestamps stay uninterpreted strings, as in the source. -/
structure FlightSegment where
  origin : String
  destination : String
  departure : String
  arrival : String
  marketing_carrier : Option String := none
  flight_number : Option String := none
  duration_minutes : Option Int := none
deriving DecidableEq

/-- One priced itinerary, from `FlightOffer` in `domain/models.py`.
`price_total` (a Python float) is embedded as an exact rational. -/
structure FlightOffer where
  provider : String
  price_total : ℚ
  currency : String
  baggage_included : Bool := false
  cabin_class : Option String := none
  segments : List FlightSegment
  booking_link : Option String := none
  refundable : Option Bool := none
  changeable : Option Bool := none
  notes : Option String := none
  ai_score : Option ℚ := none
  ai_explanation : Option String := none
deriving DecidableEq

/-- Derived attribute `FlightOffer.total_stops`: `max(0, len(self.segments) - 1)`.
Truncated subtraction on `Nat` is exactly `max(0, · - 1)`. -/
def FlightOffer.total_stops (o : FlightOffer) : Nat :=
  o.segments.length - 1

/-- Derived attribute `FlightOffer.route_summary`: origin of the first segment
followed by the destination of every segment, joined with " → ". -/
def FlightOffer.route_summary (o : FlightOffer) : String :=
  match o.segments with
  | [] => ""
  | s :: _ => String.intercalate " → " (s.origin :: o.segments.map (fun seg => seg.destination))

/-- Search criteria, from `SearchCriteria` in `domain/models.py`. -/
structure SearchCriteria where
  origin : String
  destination : String
  depart_dates : List String
  return_dates : Option (List String) := none
  adults : Int := 1
  children : Int := 0
  infants : Int := 0
  cabin_class : Option String := none
  max_stops : Option Int := none
  preferred_currency : Option String := none
  locale : Option String := none
  carry_on_only : Bool := false
  checked_bag : Bool := false
  max_price : Option ℚ := none
deriving DecidableEq

/-- Method `SearchCriteria.is_round_trip`: return dates present and non-empty. -/
def SearchCriteria.is_round_trip (c : SearchCriteria) : Bool :=
  match c.return_dates with
  | none => false
  | some l => decide (0 < l.length)

/-- Search result, from `SearchResult` in `domain/models.py`.  The
`datetime` timestamp is embedded as an opaque integer. -/
structure SearchResult where
  offers : List FlightOffer
  search_criteria : SearchCriteria
  search_timestamp : Int
  total_found : Nat
deriving DecidableEq

/-! ### Python `round(x, 2)` on exact rationals -/

/-- Floor of a rational, computed from the reduced numerator and denominator
(`Rat.den` is positive, so flooring is integer floor-division). -/
def rat_floor (q : ℚ) : Int :=
  Int.fdiv q.num q.den

/-- Round a rational to the nearest integer, ties to even — the rounding used
by Python's builtin `round`. -/
def round_half_even (q : ℚ) : Int :=
  let f := rat_floor q
  let frac := q - (f : ℚ)
  if frac < 1/2 then f
  else if 1/2 < frac then f + 1
  else if f % 2 = 0 then f else f + 1

/-- Python's `round(q, 2)`: round to two decimal places, ties to even. -/
def py_round2 (q : ℚ) : ℚ :=
  (round_half_even (q * 100) : ℚ) / 100

/-! ### Deduplication engines

Two (near-duplicated) implementations exist in the repository.
`_deduplicate_offers` in `flight_ticker/application/services.py` keys on
`(provider, route_summary, round(price_total, 2))` — no currency.
`_remove_duplicates` in `application/services/flight_search_service.py` keys on
`(provider, route_summary, round(price_total, 2), currency)`.
Both keep the first occurrence of each key (`seen` set plus append). -/

/-- Dedup signature used by `FlightSearchService._deduplicate_offers`
(`flight_ticker` package): provider, route summary, rounded price.  Note the
absence of the currency. -/
def offer_signature (o : FlightOffer) : String × String × ℚ :=
  (o.provider, o.route_summary, py_round2 o.price_total)

/-- Recursion for `_deduplicate_offers`: `seen` collects the signatures already
kept; a later offer with a seen signature is dropped. -/
def dedup_go (seen : List (String × String × ℚ)) : List FlightOffer → List FlightOffer
  | [] => []
  | o :: rest =>
    if offer_signature o ∈ seen then dedup_go seen rest
    else o :: dedup_go (offer_signature o :: seen) rest

/-- Embedding of `FlightSearchService._deduplicate_offers` (`flight_ticker/application/services.py`). -/
def deduplicate_offers (offers : List FlightOffer) : List FlightOffer :=
  dedup_go [] offers

/-- Dedup signature used by `FlightSearchService._remove_duplicates`
(`application/services/flight_search_service.py`): provider, route summary,
rounded price, currency. -/
def offer_signature_v2 (o : FlightOffer) : String × String × ℚ × String :=
  (o.provider, o.route_summary, py_round2 o.price_total, o.currency)

/-- Recursion for `_remove_duplicates`. -/
def remove_dup_go (seen : List (String × String × ℚ × String)) :
    List FlightOffer → List FlightOffer
  | [] => []
  | o :: rest =>
    if offer_signature_v2 o ∈ seen then remove_dup_go seen rest
    else o :: remove_dup_go (offer_signature_v2 o :: seen) rest

/-- Embedding of `FlightSearchService._remove_duplicates` (`application/services/flight_search_service.py`). -/
def remove_duplicates (offers : List FlightOffer) : List FlightOffer :=
  remove_dup_go [] offers

/-! ### Filter engine -/

/-- Embedding of `FlightSearchService._apply_filters` (`flight_ticker/application/services.py`):
`if criteria.max_price:` — Python truthiness, so `None` and `0.0` both skip the
price filter; `if criteria.max_stops is not None:` — only `None` skips the
stops filter. -/
def apply_filters (offers : List FlightOffer) (criteria : SearchCriteria) :
    List FlightOffer :=
  let filtered :=
    match criteria.max_price with
    | none => offers
    | some m => if m = 0 then offers else offers.filter (fun o => decide (o.price_total ≤ m))
  match criteria.max_stops with
  | none => filtered
  | some ms => filtered.filter (fun o => decide ((o.total_stops : Int) ≤ ms))

/-! ### Split-ticket strategy (`infrastructure/strategies/split_tickets.py`) -/

/-- Python's `min(offers, key=lambda x: x.price_total)` over `a :: l`: scan left
to right, replacing the current minimum only on a strictly smaller key, so the
first offer attaining the minimum price is returned. -/
def min_by_price (a : FlightOffer) (l : List FlightOffer) : FlightOffer :=
  l.foldl (fun acc o => if o.price_total < acc.price_total then o else acc) a

/-- The fixed advisory note attached to every synthesized split-ticket offer. -/
def split_note : String :=
  "⚠️ BILHETES SEPARADOS: Verifique tempo de conexão e regras de bagagem. Risco de perda de conexão."

/-- The discard test of `SplitTicketsStrategy._combine_legs`:
`if original_criteria.max_price and total_price > original_criteria.max_price`.
Python truthiness makes `None` and `0.0` skip the check. -/
def combine_discard (max_price : Option ℚ) (total_price : ℚ) : Bool :=
  match max_price with
  | none => false
  | some m => decide (¬ m = 0) && decide (m < total_price)

/-- Embedding of `SplitTicketsStrategy._combine_legs`: take the lowest-priced offer of each
leg, sum the prices, discard when a truthy `max_price` is exceeded, otherwise
synthesize a single combined offer. -/
def combine_legs (first_leg second_leg : List FlightOffer)
    (original_criteria : SearchCriteria) : List FlightOffer :=
  match first_leg, second_leg with
  | [], _ => []
  | _ :: _, [] => []
  | f :: fs, s :: ss =>
    let best_first := min_by_price f fs
    let best_second := min_by_price s ss
    let total_price := best_first.price_total + best_second.price_total
    if combine_discard original_criteria.max_price total_price then []
    else
      [{ provider := "SplitTickets",
         price_total := total_price,
         currency := best_first.currency,
         baggage_included := best_first.baggage_included && best_second.baggage_included,
         cabin_class := original_criteria.cabin_class,
         segments := best_first.segments ++ best_second.segments,
         booking_link := none,
         notes := some split_note }]

/-- The hub set `SplitTicketsStrategy.MAJOR_HUBS`, in source order. -/
def MAJOR_HUBS : List String :=
  ["LIS", "MAD", "IST", "CDG", "FRA", "LHR", "AMS",
   "DOH", "DXB", "MUC", "ZRH", "BCN", "FCO", "ATH",
   "VIE", "CPH", "ARN", "HEL", "WAW"]

/-- Embedding of `SplitTicketsStrategy._generate_hub_combinations` followed by
`list(hub_combinations)` in `execute`.  The source iterates Python `set`
objects, whose enumeration order is interpreter/hash-seed dependent and is not
determined by the source text; the embedding therefore takes the runtime's
enumeration order of the hub set as the explicit parameter
`hub_iteration_order` (a permutation of `MAJOR_HUBS`). -/
def hub_combinations (hub_iteration_order : List String)
    (origin destination : String) : List (String × String × String) :=
  (hub_iteration_order.filter (fun h => h ≠ origin && h ≠ destination)).map
    (fun h => (origin, h, destination))

/-- The truncation `list(hub_combinations)[:self._max_combinations]` in
`SplitTicketsStrategy.execute` (default `max_combinations = 20`).  No sorting
is performed before the truncation. -/
def limited_hub_combinations (hub_iteration_order : List String)
    (origin destination : String) (max_combinations : Nat) :
    List (String × String × String) :=
  (hub_combinations hub_iteration_order origin destination).take max_combinations

/-! ### Scoring and ranking engine (`infrastructure/ai/scoring_service.py`) -/

/-- Left-pad a string with zeros to the given width (used for fixed-point and
date formatting). -/
def pad_zeros (s : String) (w : Nat) : String :=
  String.mk (List.replicate (w - s.length) '0') ++ s

/-- Render a rational with a fixed number of decimal places, as Python's
fixed-point float formatting does (nearest, ties to even). -/
def format_fixed (q : ℚ) (decimals : Nat) : String :=
  let scaled := round_half_even (q * ((10 : ℚ) ^ decimals))
  let sign := if scaled < 0 then "-" else ""
  let n := scaled.natAbs
  let base := 10 ^ decimals
  if decimals = 0 then sign ++ toString n
  else sign ++ toString (n / base) ++ "." ++ pad_zeros (toString (n % base)) decimals

/-- Embedding of `AIFlightScoringService._build_explanation`: the five facts joined with " | ". -/
def build_explanation (o : FlightOffer) (score : ℚ) : String :=
  "Preço: " ++ o.currency ++ " " ++ format_fixed o.price_total 2 ++
  " | Paradas: " ++ toString o.total_stops ++
  " | Bagagem: " ++ (if o.baggage_included then "incluída" else "não incluída") ++
  " | Classe: " ++
    (match o.cabin_class with
     | none => "ECONOMY"
     | some cc => if cc = "" then "ECONOMY" else cc) ++
  " | Score: " ++ format_fixed score 1 ++ "/100"

/-- Embedding of `AIFlightScoringService._get_cabin_factor`: `if not cabin_class: return 1.0`
(Python truthiness — `None` and `""`), then a dictionary lookup on the
upper-cased class with default `1.0`. -/
def cabin_factor : Option String → ℚ
  | none => 1
  | some cc =>
    if cc = "" then 1
    else
      let up := cc.toUpper
      if up = "ECONOMY" then 105/100
      else if up = "PREMIUM_ECONOMY" then 98/100
      else if up = "BUSINESS" then 90/100
      else if up = "FIRST" then 85/100
      else 1

/-- Price factor: `min(reference_price / max(price_total, 1e-6), 2.0)`. -/
def price_factor (o : FlightOffer) (reference_price : ℚ) : ℚ :=
  min (reference_price / max o.price_total (1/1000000)) 2

/-- Stops penalty: `1.0 / (1.0 + 0.4 * total_stops)`. -/
def stops_penalty (o : FlightOffer) : ℚ :=
  1 / (1 + (2/5) * (o.total_stops : ℚ))

/-- Baggage bonus: `1.1` if baggage included else `1.0`. -/
def baggage_bonus (o : FlightOffer) : ℚ :=
  if o.baggage_included then 11/10 else 1

/-- Complexity penalty: `1.0 / (1.0 + 0.1 * max(0, len(segments) - 2))`. -/
def complexity_penalty (o : FlightOffer) : ℚ :=
  1 / (1 + (1/10) * ((o.segments.length - 2 : Nat) : ℚ))

/-- Embedding of `np.clip(x, lo, hi)`. -/
def clip (x lo hi : ℚ) : ℚ :=
  min (max x lo) hi

/-- Embedding of `AIFlightScoringService._calculate_score`: the five multiplicative factors,
scaled by 35 and clipped to `[0, 100]`, paired with the explanation string. -/
def calculate_score (o : FlightOffer) (reference_price : ℚ) : ℚ × String :=
  let raw_score :=
    price_factor o reference_price * stops_penalty o * baggage_bonus o *
      cabin_factor o.cabin_class * complexity_penalty o
  let score := clip (raw_score * 35) 0 100
  (score, build_explanation o score)

/-- Embedding of `np.median` over the price list: sort ascending; odd length takes the
middle element, even length averages the two middle elements.  (The source
guards against the empty list before calling it; `0` is a dead default.) -/
def np_median (l : List ℚ) : ℚ :=
  let sorted := List.insertionSort (fun a b : ℚ => a ≤ b) l
  let n := sorted.length
  if n = 0 then 0
  else if n % 2 = 1 then sorted.getD (n / 2) 0
  else (sorted.getD (n / 2 - 1) 0 + sorted.getD (n / 2) 0) / 2

/-- First component of the Python sort key
`lambda x: (-x.ai_score if x.ai_score else 0.0, x.price_total)`:
`None` and `0.0` are falsy and map to `0.0`. -/
def sort_key_fst (o : FlightOffer) : ℚ :=
  match o.ai_score with
  | none => 0
  | some s => if s = 0 then 0 else -s

/-- The total preorder realized by Python's ascending stable sort on the key
tuple `(sort_key_fst x, x.price_total)` (lexicographic tuple comparison). -/
def ranking_le (a b : FlightOffer) : Prop :=
  sort_key_fst a < sort_key_fst b ∨
    (sort_key_fst a = sort_key_fst b ∧ a.price_total ≤ b.price_total)

instance ranking_le_decidable : DecidableRel ranking_le := fun a b =>
  decidable_of_iff
    (sort_key_fst a < sort_key_fst b ∨
      (sort_key_fst a = sort_key_fst b ∧ a.price_total ≤ b.price_total))
    Iff.rfl

instance ranking_le_total : IsTotal FlightOffer ranking_le where
  total a b := by
    rcases lt_trichotomy (sort_key_fst a) (sort_key_fst b) with h | h | h
    · exact Or.inl (Or.inl h)
    · rcases le_total a.price_total b.price_total with hp | hp
      · exact Or.inl (Or.inr ⟨h, hp⟩)
      · exact Or.inr (Or.inr ⟨h.symm, hp⟩)
    · exact Or.inr (Or.inl h)

instance ranking_le_trans : IsTrans FlightOffer ranking_le where
  trans a b c hab hbc := by
    rcases hab with hab | ⟨hab, hab'⟩
    · rcases hbc with hbc | ⟨hbc, _⟩
      · exact Or.inl (hab.trans hbc)
      · exact Or.inl (hbc ▸ hab)
    · rcases hbc with hbc | ⟨hbc, hbc'⟩
      · exact Or.inl (hab ▸ hbc)
      · exact Or.inr ⟨hab.trans hbc, hab'.trans hbc'⟩

/-- The in-place score assignment performed inside `score_offers`:
`offer.ai_score = score; offer.ai_explanation = explanation`. -/
def assign_score (reference_price : ℚ) (o : FlightOffer) : FlightOffer :=
  let sc := calculate_score o reference_price
  { o with ai_score := some sc.1, ai_explanation := some sc.2 }

/-- The scored (but not yet sorted) offer list built by `score_offers`; the
reference price is the median of the input prices. -/
def scored_offers_list (offers : List FlightOffer) : List FlightOffer :=
  offers.map (assign_score (np_median (offers.map FlightOffer.price_total)))

/-- Embedding of `AIFlightScoringService.score_offers`: empty input returned unchanged;
otherwise score every offer against the median price and sort with Python's
stable `sorted` (embedded as a stable insertion sort) on the key
`(-score if score else 0.0, price_total)`. -/
def score_offers (offers : List FlightOffer) : List FlightOffer :=
  if offers = [] then offers
  else List.insertionSort ranking_le (scored_offers_list offers)

/-! ### The search pipeline (`flight_ticker/application/services.py`) -/

/-- The merge step of `FlightSearchService.search`: `asyncio.gather` with
`return_exceptions=True` yields one settled result per strategy; a raised
exception (embedded as `none`) contributes no offers
(`if isinstance(result, list): all_offers.extend(result)`). -/
def collect_strategy_offers (strategy_results : List (Option (List FlightOffer))) :
    List FlightOffer :=
  (strategy_results.filterMap id).flatten

/-- Embedding of `FlightSearchService.search` after the fan-out has settled: merge, dedupe,
filter, score, and package the result.  `total_found` is set to
`len(scored_offers)` — the length of the final list. -/
def search (strategy_results : List (Option (List FlightOffer)))
    (criteria : SearchCriteria) (now : Int) : SearchResult :=
  let all_offers := collect_strategy_offers strategy_results
  let unique_offers := deduplicate_offers all_offers
  let filtered_offers := apply_filters unique_offers criteria
  let scored := score_offers filtered_offers
  { offers := scored,
    search_criteria := criteria,
    search_timestamp := now,
    total_found := scored.length }

/-! ### `SearchResult` derived offers (`domain/models.py`) -/

/-- The key of `max(self.offers, key=lambda x: x.ai_score or 0.0)`: `None` and
`0.0` are falsy and map to `0.0`. -/
def best_key (o : FlightOffer) : ℚ :=
  match o.ai_score with
  | none => 0
  | some s => if s = 0 then 0 else s

/-- One step of Python's `max(..., key=...)` scan: the accumulator is replaced
only when the candidate's key is strictly greater. -/
def best_step (acc x : FlightOffer) : FlightOffer :=
  if best_key acc < best_key x then x else acc

/-- Python's `max(offers, key=best_key)` on a non-empty list: scan left to
right, replacing the current maximum only on a strictly greater key, so the
first offer attaining the maximum key is returned. -/
def best_offer_list : List FlightOffer → Option FlightOffer
  | [] => none
  | h :: t => some (t.foldl best_step h)

/-- Property `SearchResult.best_offer`. -/
def SearchResult.best_offer (r : SearchResult) : Option FlightOffer :=
  best_offer_list r.offers

/-- Property `SearchResult.cheapest_offer`. -/
def SearchResult.cheapest_offer (r : SearchResult) : Option FlightOffer :=
  match r.offers with
  | [] => none
  | h :: t => some (min_by_price h t)

/-! ### Date window expansion

`FlexibleDatesStrategy._expand_dates` (no exception handler — a malformed date
raises `ValueError` out of the strategy) and
`FlightStrategyService.expand_flexible_dates` (catches `ValueError` and
degrades to `[base_date]`).  `datetime.strptime(s, "%Y-%m-%d")` is modelled by
an explicit parser with the same accepted language: exactly four digits for
`%Y` (year 1–9999), one or two digits for `%m`/`%d`, values validated against
the Gregorian calendar.  Dates are represented by their day number
(Gregorian serial day, proleptic); the `OverflowError` of `datetime` arithmetic
at the ends of its 9999-year range is not modelled. -/

/-- Gregorian leap-year test. -/
def is_leap_year (y : Int) : Bool :=
  y % 4 = 0 && (y % 100 ≠ 0 || y % 400 = 0)

/-- Number of days in a month. -/
def days_in_month (y m : Int) : Int :=
  if m = 2 then (if is_leap_year y then 29 else 28)
  else if m = 4 ∨ m = 6 ∨ m = 9 ∨ m = 11 then 30
  else 31

/-- Day number of a Gregorian calendar date (days since 1970-01-01, proleptic;
Howard Hinnant's `days_from_civil`). -/
def days_from_civil (y m d : Int) : Int :=
  let y := y - (if m ≤ 2 then 1 else 0)
  let era := Int.fdiv y 400
  let yoe := y - era * 400
  let mp := Int.emod (m + 9) 12
  let doy := (153 * mp + 2) / 5 + d - 1
  let doe := yoe * 365 + yoe / 4 - yoe / 100 + doy
  era * 146097 + doe - 719468

/-- Inverse of `days_from_civil` (Howard Hinnant's `civil_from_days`). -/
def civil_from_days (z : Int) : Int × Int × Int :=
  let z := z + 719468
  let era := Int.fdiv z 146097
  let doe := z - era * 146097
  let yoe := (doe - doe / 1460 + doe / 36524 - doe / 146096) / 365
  let y := yoe + era * 400
  let doy := doe - (365 * yoe + yoe / 4 - yoe / 100)
  let mp := (5 * doy + 2) / 153
  let d := doy - (153 * mp + 2) / 5 + 1
  let m := mp + (if mp < 10 then 3 else -9)
  (y + (if m ≤ 2 then 1 else 0), m, d)

/-- Digit-string to number (`none` when empty or a non-digit appears),
for the fields matched by `strptime`. -/
def digits_to_nat : List Char → Option Nat
  | [] => none
  | cs => go cs 0
where
  go : List Char → Nat → Option Nat
    | [], acc => some acc
    | c :: rest, acc =>
      if c.isDigit then go rest (acc * 10 + (c.toNat - 48))
      else none

/-- Split a character list on '-' (the literal separators of the format
string). -/
def split_on_dash (cs : List Char) : List (List Char) :=
  match cs with
  | [] => [[]]
  | c :: rest =>
    let tail := split_on_dash rest
    if c = '-' then [] :: tail
    else
      match tail with
      | [] => [[c]]
      | t :: ts => (c :: t) :: ts

/-- Embedding of `datetime.strptime(s, "%Y-%m-%d")`: `%Y` is exactly four
digits (year ≥ 1), `%m` and `%d` one or two digits, month in 1–12, day valid
for the month; anything else raises `ValueError`, embedded as `none`.  On
success the date's day number is returned. -/
def parse_iso_date (s : String) : Option Int :=
  match split_on_dash s.data with
  | [ys, ms, ds] =>
    match digits_to_nat ys, digits_to_nat ms, digits_to_nat ds with
    | some y, some m, some d =>
      if ys.length = 4 ∧ ms.length ≤ 2 ∧ ds.length ≤ 2 ∧
          1 ≤ y ∧ 1 ≤ m ∧ m ≤ 12 ∧ 1 ≤ d ∧ (d : Int) ≤ days_in_month y m
      then some (days_from_civil y m d)
      else none
    | _, _, _ => none
  | _ => none

/-- Embedding of `dt.strftime("%Y-%m-%d")`: zero-padded 4-2-2 rendering of the
civil date of a day number. -/
def format_iso_date (z : Int) : String :=
  let c := civil_from_days z
  pad_zeros (toString c.1.natAbs) 4 ++ "-" ++
    pad_zeros (toString c.2.1.natAbs) 2 ++ "-" ++
    pad_zeros (toString c.2.2.natAbs) 2

/-- Python's `range(start, stop)` over integers. -/
def py_range (start stop : Int) : List Int :=
  (List.range (stop - start).toNat).map (fun i => start + (i : Int))

/-- Embedding of `FlightStrategyService.expand_flexible_dates`
(`application/services/flight_strategy_service.py`): expand
`base_date - days_before … base_date + days_after`, deduplicate, sort;
`except ValueError: return [base_date]`. -/
def expand_flexible_dates (base_date : String) (days_before days_after : Int) :
    List String :=
  match parse_iso_date base_date with
  | none => [base_date]
  | some day =>
    let expanded := (py_range (-days_before) (days_after + 1)).map
      (fun delta => format_iso_date (day + delta))
    List.insertionSort (fun a b : String => a ≤ b) expanded.eraseDups

/-- Embedding of `FlexibleDatesStrategy._expand_dates`
(`infrastructure/strategies/flexible_dates.py`): same expansion over
`range(-days_range, days_range + 1)`, but with no exception handler — a
malformed `base_date` raises `ValueError` (embedded as `Except.error`). -/
def expand_dates (base_date : String) (days_range : Int) :
    Except String (List String) :=
  match parse_iso_date base_date with
  | none => Except.error "ValueError"
  | some day =>
    let dates := (py_range (-days_range) (days_range + 1)).map
      (fun delta => format_iso_date (day + delta))
    Except.ok (List.insertionSort (fun a b : String => a ≤ b) dates.eraseDups)

/-! ### Helper lemmas about the scoring factors -/

lemma clip_nonneg (x hi : ℚ) (h : 0 ≤ hi) : 0 ≤ clip x 0 hi :=
  le_min (le_max_right x 0) h

lemma clip_le_hi (x hi : ℚ) : clip x 0 hi ≤ hi :=
  min_le_right _ _

lemma clip_eq_self (x : ℚ) (h0 : 0 ≤ x) (h100 : x ≤ 100) : clip x 0 100 = x := by
  unfold clip
  rw [max_eq_left h0, min_eq_left h100]

lemma stops_penalty_pos (o : FlightOffer) : 0 < stops_penalty o := by
  unfold stops_penalty
  have h : (0 : ℚ) ≤ (o.total_stops : ℚ) := Nat.cast_nonneg _
  positivity

lemma stops_penalty_le_one (o : FlightOffer) : stops_penalty o ≤ 1 := by
  unfold stops_penalty
  have h : (0 : ℚ) ≤ (o.total_stops : ℚ) := Nat.cast_nonneg _
  rw [div_le_one (by linarith)]
  linarith

lemma baggage_bonus_pos (o : FlightOffer) : 0 < baggage_bonus o := by
  unfold baggage_bonus
  split <;> norm_num

lemma baggage_bonus_le (o : FlightOffer) : baggage_bonus o ≤ 11/10 := by
  unfold baggage_bonus
  split <;> norm_num

lemma cabin_factor_pos (cc : Option String) : 0 < cabin_factor cc := by
  unfold cabin_factor
  rcases cc with _ | c
  · norm_num
  · simp only
    split <;> norm_num
    split <;> norm_num
    split <;> norm_num
    split <;> norm_num
    split <;> norm_num

lemma cabin_factor_le (cc : Option String) : cabin_factor cc ≤ 21/20 := by
  unfold cabin_factor
  rcases cc with _ | c
  · norm_num
  · simp only
    split <;> norm_num
    split <;> norm_num
    split <;> norm_num
    split <;> norm_num
    split <;> norm_num

lemma complexity_penalty_pos (o : FlightOffer) : 0 < complexity_penalty o := by
  unfold complexity_penalty
  have h : (0 : ℚ) ≤ ((o.segments.length - 2 : Nat) : ℚ) := Nat.cast_nonneg _
  positivity

lemma complexity_penalty_le_one (o : FlightOffer) : complexity_penalty o ≤ 1 := by
  unfold complexity_penalty
  have h : (0 : ℚ) ≤ ((o.segments.length - 2 : Nat) : ℚ) := Nat.cast_nonneg _
  rw [div_le_one (by linarith)]
  linarith

/-- The product of the four non-price factors lies in `(0, 231/200]`. -/
lemma core_factors_bounds (o : FlightOffer) :
    0 < stops_penalty o * baggage_bonus o * cabin_factor o.cabin_class * complexity_penalty o ∧
    stops_penalty o * baggage_bonus o * cabin_factor o.cabin_class * complexity_penalty o
      ≤ 231/200 := by
  have h1 := stops_penalty_pos o
  have h2 := baggage_bonus_pos o
  have h3 := cabin_factor_pos o.cabin_class
  have h4 := complexity_penalty_pos o
  have h1' := stops_penalty_le_one o
  have h2' := baggage_bonus_le o
  have h3' := cabin_factor_le o.cabin_class
  have h4' := complexity_penalty_le_one o
  constructor
  · positivity
  · have ha : stops_penalty o * baggage_bonus o ≤ 1 * (11/10) :=
      mul_le_mul h1' h2' h2.le (by norm_num)
    have hb : stops_penalty o * baggage_bonus o * cabin_factor o.cabin_class
        ≤ 1 * (11/10) * (21/20) :=
      mul_le_mul ha h3' h3.le (by positivity)
    have hc : stops_penalty o * baggage_bonus o * cabin_factor o.cabin_class *
        complexity_penalty o ≤ 1 * (11/10) * (21/20) * 1 :=
      mul_le_mul hb h4' h4.le (by positivity)
    linarith

/-- C4: for every offer and every reference price the computed score equals
`clamp(priceFactor × stopsPenalty × baggageBonus × cabinFactor ×
complexityPenalty × 35, 0, 100)` and therefore satisfies `0 ≤ score ≤ 100`. -/
theorem calculate_score_bounds (o : FlightOffer) (reference_price : ℚ) :
    (calculate_score o reference_price).1 =
      clip (price_factor o reference_price * stops_penalty o * baggage_bonus o *
        cabin_factor o.cabin_class * complexity_penalty o * 35) 0 100 ∧
    0 ≤ (calculate_score o reference_price).1 ∧
    (calculate_score o reference_price).1 ≤ 100 :=
  ⟨rfl, clip_nonneg _ _ (by norm_num), clip_le_hi _ _⟩

/-- C5 (amended): for a fixed positive reference price, holding every other
field fixed, a strictly lower total price gives a strictly higher score,
provided both prices are at least the `1e-6` division floor and above the
point `referencePrice / 2` where the 2× price-factor cap engages. -/
theorem score_strict_mono (o : FlightOffer) (r p1 p2 : ℚ)
    (hr : 0 < r) (hp1 : 1/1000000 ≤ p1) (hp2 : 1/1000000 ≤ p2)
    (hc1 : r/2 < p1) (hc2 : r/2 < p2) (hlt : p1 < p2) :
    (calculate_score { o with price_total := p2 } r).1 <
      (calculate_score { o with price_total := p1 } r).1 := by
  have hp1' : (0:ℚ) < p1 := lt_of_lt_of_le (by norm_num) hp1
  have hp2' : (0:ℚ) < p2 := lt_of_lt_of_le (by norm_num) hp2
  obtain ⟨hK0, hK1⟩ := core_factors_bounds o
  have hpf : ∀ p : ℚ, 1/1000000 ≤ p → 0 < p → r/2 < p →
      price_factor { o with price_total := p } r = r / p := by
    intro p hp hppos hcap
    unfold price_factor
    have h1 : max ({ o with price_total := p } : FlightOffer).price_total (1/1000000) = p :=
      max_eq_left hp
    rw [h1]
    have h2 : r / p < 2 := by
      rw [div_lt_iff₀ hppos]
      linarith
    exact min_eq_left h2.le
  have key : ∀ p : ℚ, 1/1000000 ≤ p → 0 < p → r/2 < p →
      (calculate_score { o with price_total := p } r).1
        = r / p * (stops_penalty o * baggage_bonus o * cabin_factor o.cabin_class *
            complexity_penalty o) * 35 := by
    intro p hp hppos hcap
    have hrp : 0 < r / p := div_pos hr hppos
    have hpf2 : r / p < 2 := by
      rw [div_lt_iff₀ hppos]
      linarith
    have h1 : (calculate_score { o with price_total := p } r).1
        = clip (r / p * stops_penalty o * baggage_bonus o * cabin_factor o.cabin_class *
            complexity_penalty o * 35) 0 100 := by
      show clip (price_factor { o with price_total := p } r * stops_penalty o *
          baggage_bonus o * cabin_factor o.cabin_class * complexity_penalty o * 35) 0 100 = _
      rw [hpf p hp hppos hcap]
    rw [h1]
    have hre : r / p * stops_penalty o * baggage_bonus o * cabin_factor o.cabin_class *
        complexity_penalty o * 35
        = r / p * (stops_penalty o * baggage_bonus o * cabin_factor o.cabin_class *
            complexity_penalty o) * 35 := by ring
    rw [hre]
    have hx0 : (0:ℚ) ≤ r / p * (stops_penalty o * baggage_bonus o *
        cabin_factor o.cabin_class * complexity_penalty o) * 35 :=
      le_of_lt (mul_pos (mul_pos hrp hK0) (by norm_num))
    have hle : r / p * (stops_penalty o * baggage_bonus o * cabin_factor o.cabin_class *
        complexity_penalty o) ≤ 231/100 := by
      have := mul_le_mul hpf2.le hK1 hK0.le (by norm_num : (0:ℚ) ≤ 2)
      linarith
    have hx100 : r / p * (stops_penalty o * baggage_bonus o * cabin_factor o.cabin_class *
        complexity_penalty o) * 35 ≤ 100 := by
      have := mul_le_mul_of_nonneg_right hle (by norm_num : (0:ℚ) ≤ 35)
      linarith
    exact clip_eq_self _ hx0 hx100
  rw [key p1 hp1 hp1' hc1, key p2 hp2 hp2' hc2]
  have hdiv : r / p2 < r / p1 := div_lt_div_of_pos_left hr hp1' hlt
  have hc : 0 < (stops_penalty o * baggage_bonus o * cabin_factor o.cabin_class *
      complexity_penalty o) * 35 := mul_pos hK0 (by norm_num)
  calc r / p2 * (stops_penalty o * baggage_bonus o * cabin_factor o.cabin_class *
        complexity_penalty o) * 35
      = r / p2 * ((stops_penalty o * baggage_bonus o * cabin_factor o.cabin_class *
          complexity_penalty o) * 35) := by ring
    _ < r / p1 * ((stops_penalty o * baggage_bonus o * cabin_factor o.cabin_class *
          complexity_penalty o) * 35) := (mul_lt_mul_right hc).mpr hdiv
    _ = r / p1 * (stops_penalty o * baggage_bonus o * cabin_factor o.cabin_class *
          complexity_penalty o) * 35 := by ring

/-- Concrete segment used by the closed examples below. -/
def seg_demo : FlightSegment :=
  { origin := "GRU", destination := "LIS",
    departure := "2025-03-20T10:00:00+00:00", arrival := "2025-03-20T20:00:00+00:00" }

/-- One-segment economy offer with a given price, used by the closed examples. -/
def cx_offer (p : ℚ) : FlightOffer :=
  { provider := "Kiwi", price_total := p, currency := "EUR", segments := [seg_demo] }

/-- Witness for C5: at reference price 100 and prices 90 < 95 the hypotheses
hold and the cheaper offer scores strictly higher. -/
theorem score_strict_mono_witness :
    (0:ℚ) < 100 ∧ (1/1000000 : ℚ) ≤ 90 ∧ (1/1000000 : ℚ) ≤ 95 ∧
      (100:ℚ)/2 < 90 ∧ (100:ℚ)/2 < 95 ∧ (90:ℚ) < 95 ∧
      (calculate_score { cx_offer 1 with price_total := 95 } 100).1 <
        (calculate_score { cx_offer 1 with price_total := 90 } 100).1 :=
  ⟨by norm_num, by norm_num, by norm_num, by norm_num, by norm_num, by norm_num,
    score_strict_mono (cx_offer 1) 100 90 95 (by norm_num) (by norm_num) (by norm_num)
      (by norm_num) (by norm_num) (by norm_num)⟩

/-- Counterexample to C5 as stated: with reference price `1e-8` and the two
prices `1e-8 < 2e-8` — both positive and both above `referencePrice / 2`, so
the 2× cap does not engage — the `1e-6` floor inside
`max(price_total, 1e-6)` makes both price factors equal, and the two scores
coincide: the strictly cheaper offer does NOT get a strictly higher score. -/
theorem score_mono_counterexample :
    ((0:ℚ) < 1/100000000 ∧ (0:ℚ) < 2/100000000 ∧
      (1/100000000 : ℚ)/2 < 1/100000000 ∧ (1/100000000 : ℚ)/2 < 2/100000000 ∧
      (1/100000000 : ℚ) < 2/100000000) ∧
    ¬ ((calculate_score (cx_offer (2/100000000)) (1/100000000)).1 <
        (calculate_score (cx_offer (1/100000000)) (1/100000000)).1) := by
  constructor
  · norm_num
  · have e1 : ∀ p : ℚ, 0 < p → p ≤ 1/1000000 →
        (calculate_score (cx_offer p) (1/100000000)).1 = 7/20 := by
      intro p hp hple
      show clip (price_factor (cx_offer p) (1/100000000) * stops_penalty (cx_offer p) *
          baggage_bonus (cx_offer p) * cabin_factor (cx_offer p).cabin_class *
          complexity_penalty (cx_offer p) * 35) 0 100 = 7/20
      have h1 : price_factor (cx_offer p) (1/100000000) = 1/100 := by
        unfold price_factor
        have : max (cx_offer p).price_total (1/1000000) = 1/1000000 := max_eq_right hple
        rw [this]
        norm_num
      have h2 : stops_penalty (cx_offer p) = 1 := by
        unfold stops_penalty FlightOffer.total_stops
        norm_num [cx_offer]
      have h3 : baggage_bonus (cx_offer p) = 1 := rfl
      have h4 : cabin_factor (cx_offer p).cabin_class = 1 := rfl
      have h5 : complexity_penalty (cx_offer p) = 1 := by
        unfold complexity_penalty
        norm_num [cx_offer]
      rw [h1, h2, h3, h4, h5]
      unfold clip
      norm_num
    rw [e1 (1/100000000) (by norm_num) (by norm_num),
        e1 (2/100000000) (by norm_num) (by norm_num)]
    exact lt_irrefl _

/-! ### Lemmas about `min_by_price` and the lowest leg price -/

/-- Specification-side notion: the lowest total price appearing in a leg's
offer list (0 for an empty leg, a case the claims exclude). -/
def least_price (l : List FlightOffer) : ℚ :=
  ((l.map FlightOffer.price_total).min?).getD 0

/-- Specification-side notion: `b` is a best (lowest-priced) offer of leg `l`. -/
def is_best_of (b : FlightOffer) (l : List FlightOffer) : Prop :=
  b ∈ l ∧ ∀ o ∈ l, b.price_total ≤ o.price_total

lemma min_by_price_price (a : FlightOffer) (l : List FlightOffer) :
    (min_by_price a l).price_total = (l.map FlightOffer.price_total).foldl min a.price_total := by
  induction l generalizing a with
  | nil => rfl
  | cons x xs ih =>
    show (min_by_price (if x.price_total < a.price_total then x else a) xs).price_total = _
    rw [ih]
    have h : (if x.price_total < a.price_total then x else a).price_total
        = min a.price_total x.price_total := by
      by_cases h : x.price_total < a.price_total
      · rw [if_pos h, min_eq_right h.le]
      · rw [if_neg h, min_eq_left (not_lt.mp h)]
    rw [List.map_cons, List.foldl_cons, h]

lemma min_by_price_mem (a : FlightOffer) (l : List FlightOffer) :
    min_by_price a l ∈ a :: l := by
  induction l generalizing a with
  | nil => exact List.mem_singleton.mpr rfl
  | cons x xs ih =>
    have h := ih (if x.price_total < a.price_total then x else a)
    rcases List.mem_cons.mp h with h | h
    · rw [show min_by_price a (x :: xs) = min_by_price (if x.price_total < a.price_total then x else a) xs from rfl, h]
      by_cases hx : x.price_total < a.price_total
      · rw [if_pos hx]
        exact List.mem_cons_of_mem _ (List.mem_cons_self _ _)
      · rw [if_neg hx]
        exact List.mem_cons_self _ _
    · exact List.mem_cons_of_mem _ (List.mem_cons_of_mem _ h)

lemma foldl_min_le_init (l : List ℚ) (q : ℚ) : l.foldl min q ≤ q := by
  induction l generalizing q with
  | nil => exact le_refl q
  | cons x xs ih => exact le_trans (ih (min q x)) (min_le_left q x)

lemma foldl_min_le_mem (l : List ℚ) (q : ℚ) : ∀ x ∈ l, l.foldl min q ≤ x := by
  induction l generalizing q with
  | nil => intro x hx; cases hx
  | cons y ys ih =>
    intro x hx
    rcases List.mem_cons.mp hx with h | h
    · subst h
      exact le_trans (foldl_min_le_init ys (min q x)) (min_le_right q x)
    · exact ih (min q y) x h

lemma least_price_cons (a : FlightOffer) (l : List FlightOffer) :
    least_price (a :: l) = (l.map FlightOffer.price_total).foldl min a.price_total := by
  unfold least_price
  rw [List.map_cons, List.min?_cons']
  rfl

lemma min_by_price_is_best (a : FlightOffer) (l : List FlightOffer) :
    is_best_of (min_by_price a l) (a :: l) := by
  refine ⟨min_by_price_mem a l, ?_⟩
  intro o ho
  rw [min_by_price_price]
  rcases List.mem_cons.mp ho with h | h
  · subst h
    exact foldl_min_le_init _ _
  · exact foldl_min_le_mem _ _ _ (List.mem_map_of_mem FlightOffer.price_total h)

lemma min_by_price_least (a : FlightOffer) (l : List FlightOffer) :
    (min_by_price a l).price_total = least_price (a :: l) := by
  rw [min_by_price_price, least_price_cons]

/-- Unfolding of `combine_legs` on two non-empty legs. -/
lemma combine_legs_cons (f0 s0 : FlightOffer) (fs ss : List FlightOffer)
    (c : SearchCriteria) :
    combine_legs (f0 :: fs) (s0 :: ss) c =
      (if combine_discard c.max_price
           ((min_by_price f0 fs).price_total +
             (min_by_price s0 ss).price_total) then ([] : List FlightOffer)
       else
         [{ provider := "SplitTickets",
            price_total := (min_by_price f0 fs).price_total +
              (min_by_price s0 ss).price_total,
            currency := (min_by_price f0 fs).currency,
            baggage_included := (min_by_price f0 fs).baggage_included &&
              (min_by_price s0 ss).baggage_included,
            cabin_class := c.cabin_class,
            segments := (min_by_price f0 fs).segments ++ (min_by_price s0 ss).segments,
            booking_link := none,
            notes := some split_note }]) := rfl

/-- The discard flag of `combine_legs` is false whenever any set max price is
at least the summed best prices. -/
lemma combine_discard_false (f0 s0 : FlightOffer) (fs ss : List FlightOffer)
    (c : SearchCriteria)
    (hmax : ∀ m, c.max_price = some m →
      least_price (f0 :: fs) + least_price (s0 :: ss) ≤ m) :
    combine_discard c.max_price
      ((min_by_price f0 fs).price_total + (min_by_price s0 ss).price_total) = false := by
  rcases hcm : c.max_price with _ | m
  · rfl
  · have hle := hmax m hcm
    show (decide (¬ m = 0) && decide (m < (min_by_price f0 fs).price_total +
      (min_by_price s0 ss).price_total)) = false
    rw [min_by_price_least f0 fs, min_by_price_least s0 ss]
    rw [decide_eq_false (not_lt.mpr hle)]
    exact Bool.and_false _

/-- C1: the split-ticket combine step.  (a) If either leg is empty, no offer is
produced.  (b) If the criteria carry a (positive) max price and the sum of the
two legs' lowest prices exceeds it, the combination is discarded.  (c)
Otherwise exactly one combined offer is produced, whose price is the sum of
the two legs' lowest prices, whose segments are a best (lowest-priced) offer
of the first leg's segments followed by a best offer of the second leg's
segments, whose baggage flag is the conjunction of those two offers' flags,
and which carries the fixed advisory note. -/
theorem combine_legs_spec :
    (∀ (f s : List FlightOffer) (c : SearchCriteria),
        f = [] ∨ s = [] → combine_legs f s c = []) ∧
    (∀ (f s : List FlightOffer) (c : SearchCriteria) (m : ℚ),
        f ≠ [] → s ≠ [] → c.max_price = some m → 0 < m →
        m < least_price f + least_price s → combine_legs f s c = []) ∧
    (∀ (f s : List FlightOffer) (c : SearchCriteria),
        f ≠ [] → s ≠ [] →
        (∀ m, c.max_price = some m → least_price f + least_price s ≤ m) →
        ∃ b1 b2 o, is_best_of b1 f ∧ is_best_of b2 s ∧
          combine_legs f s c = [o] ∧
          o.price_total = least_price f + least_price s ∧
          o.segments = b1.segments ++ b2.segments ∧
          o.baggage_included = (b1.baggage_included && b2.baggage_included) ∧
          o.notes = some split_note) := by
  refine ⟨?_, ?_, ?_⟩
  · intro f s c h
    rcases h with h | h
    · subst h; rfl
    · subst h
      cases f with
      | nil => rfl
      | cons f0 fs => rfl
  · intro f s c m hf hs hcm hm0 hlt
    cases f with
    | nil => exact absurd rfl hf
    | cons f0 fs =>
      cases s with
      | nil => exact absurd rfl hs
      | cons s0 ss =>
        rw [combine_legs_cons]
        have hbool : combine_discard c.max_price
            ((min_by_price f0 fs).price_total + (min_by_price s0 ss).price_total) = true := by
          rw [hcm]
          show (decide (¬ m = 0) && decide (m < (min_by_price f0 fs).price_total +
            (min_by_price s0 ss).price_total)) = true
          rw [min_by_price_least f0 fs, min_by_price_least s0 ss]
          rw [decide_eq_true hlt, decide_eq_true hm0.ne', Bool.true_and]
        rw [hbool, if_pos rfl]
  · intro f s c hf hs hmax
    cases f with
    | nil => exact absurd rfl hf
    | cons f0 fs =>
      cases s with
      | nil => exact absurd rfl hs
      | cons s0 ss =>
        refine ⟨min_by_price f0 fs, min_by_price s0 ss,
          { provider := "SplitTickets",
            price_total := (min_by_price f0 fs).price_total + (min_by_price s0 ss).price_total,
            currency := (min_by_price f0 fs).currency,
            baggage_included := (min_by_price f0 fs).baggage_included &&
              (min_by_price s0 ss).baggage_included,
            cabin_class := c.cabin_class,
            segments := (min_by_price f0 fs).segments ++ (min_by_price s0 ss).segments,
            booking_link := none,
            notes := some split_note },
          min_by_price_is_best f0 fs, min_by_price_is_best s0 ss, ?_, ?_, rfl, rfl, rfl⟩
        · rw [combine_legs_cons, combine_discard_false f0 s0 fs ss c hmax, if_neg]
          simp only [Bool.false_eq_true, not_false_eq_true]
        · show (min_by_price f0 fs).price_total + (min_by_price s0 ss).price_total = _
          rw [min_by_price_least f0 fs, min_by_price_least s0 ss]

/-- Minimal one-way criteria used by the closed examples. -/
def crit_basic : SearchCriteria :=
  { origin := "GRU", destination := "LIS", depart_dates := ["2025-03-20"] }

/-- The criteria with max price 1000 (the spec's discard scenario). -/
def crit_max1000 : SearchCriteria :=
  { crit_basic with max_price := some 1000 }

/-- The criteria with max price 2000. -/
def crit_max2000 : SearchCriteria :=
  { crit_basic with max_price := some 2000 }

/-- Witness for C1, on the spec's own scenario: legs priced 300 and 900; with
max price 1000 the 1200 sum is discarded, with max price 2000 one combined
offer is produced, and an empty first leg yields nothing. -/
theorem combine_legs_spec_witness :
    combine_legs [] [cx_offer 900] crit_max2000 = [] ∧
    combine_legs [cx_offer 300] [cx_offer 900] crit_max1000 = [] ∧
    (∃ b1 b2 o, is_best_of b1 [cx_offer 300] ∧ is_best_of b2 [cx_offer 900] ∧
      combine_legs [cx_offer 300] [cx_offer 900] crit_max2000 = [o] ∧
      o.price_total = least_price [cx_offer 300] + least_price [cx_offer 900] ∧
      o.segments = b1.segments ++ b2.segments ∧
      o.baggage_included = (b1.baggage_included && b2.baggage_included) ∧
      o.notes = some split_note) :=
  ⟨combine_legs_spec.1 [] [cx_offer 900] crit_max2000 (Or.inl rfl),
   combine_legs_spec.2.1 [cx_offer 300] [cx_offer 900] crit_max1000 1000
     (List.cons_ne_nil _ _) (List.cons_ne_nil _ _) rfl (by norm_num)
     (by rw [show least_price [cx_offer 300] = 300 from rfl,
             show least_price [cx_offer 900] = 900 from rfl]
         norm_num),
   combine_legs_spec.2.2 [cx_offer 300] [cx_offer 900] crit_max2000
     (List.cons_ne_nil _ _) (List.cons_ne_nil _ _)
     (by intro m hm
         have h : (2000 : ℚ) = m := Option.some.inj hm
         subst h
         rw [show least_price [cx_offer 300] = 300 from rfl,
             show least_price [cx_offer 900] = 900 from rfl]
         norm_num)⟩

/-- C10: on two non-empty legs that survive the max-price check, the combined
offer's currency is the currency of the first leg's best (lowest-priced) offer
and its price is the plain sum of the two best offers' prices — no
currency-equality check and no conversion is performed, whatever the two
currencies are. -/
theorem combine_legs_currency :
    ∀ (f s : List FlightOffer) (c : SearchCriteria),
      f ≠ [] → s ≠ [] →
      (∀ m, c.max_price = some m → least_price f + least_price s ≤ m) →
      ∃ b1 b2 o, is_best_of b1 f ∧ is_best_of b2 s ∧
        combine_legs f s c = [o] ∧
        o.currency = b1.currency ∧
        o.price_total = b1.price_total + b2.price_total := by
  intro f s c hf hs hmax
  cases f with
  | nil => exact absurd rfl hf
  | cons f0 fs =>
    cases s with
    | nil => exact absurd rfl hs
    | cons s0 ss =>
      refine ⟨min_by_price f0 fs, min_by_price s0 ss,
        { provider := "SplitTickets",
          price_total := (min_by_price f0 fs).price_total + (min_by_price s0 ss).price_total,
          currency := (min_by_price f0 fs).currency,
          baggage_included := (min_by_price f0 fs).baggage_included &&
            (min_by_price s0 ss).baggage_included,
          cabin_class := c.cabin_class,
          segments := (min_by_price f0 fs).segments ++ (min_by_price s0 ss).segments,
          booking_link := none,
          notes := some split_note },
        min_by_price_is_best f0 fs, min_by_price_is_best s0 ss, ?_, rfl, rfl⟩
      rw [combine_legs_cons, combine_discard_false f0 s0 fs ss c hmax, if_neg]
      simp only [Bool.false_eq_true, not_false_eq_true]

/-- One-segment offer in US dollars, from a different provider. -/
def usd_offer (p : ℚ) : FlightOffer :=
  { provider := "Amadeus", price_total := p, currency := "USD", segments := [seg_demo] }

/-- Witness for C10: a EUR first leg and a USD second leg — different
currencies — still produce one combined offer with summed price and the first
leg's currency. -/
theorem combine_legs_currency_witness :
    ([cx_offer 300] : List FlightOffer) ≠ [] ∧
    ([usd_offer 900] : List FlightOffer) ≠ [] ∧
    (cx_offer 300).currency ≠ (usd_offer 900).currency ∧
    (∃ b1 b2 o, is_best_of b1 [cx_offer 300] ∧ is_best_of b2 [usd_offer 900] ∧
      combine_legs [cx_offer 300] [usd_offer 900] crit_basic = [o] ∧
      o.currency = b1.currency ∧
      o.price_total = b1.price_total + b2.price_total) :=
  ⟨List.cons_ne_nil _ _, List.cons_ne_nil _ _,
   by decide,
   combine_legs_currency [cx_offer 300] [usd_offer 900] crit_basic
     (List.cons_ne_nil _ _) (List.cons_ne_nil _ _)
     (fun m hm => nomatch hm)⟩

/-- An offer identical to `cx_offer 500` except for its currency. -/
def usd_clone : FlightOffer :=
  { cx_offer 500 with currency := "USD" }

unseal Rat.add Rat.mul Rat.inv Rat.sub in
/-- C2 evaluation: two offers agreeing on provider, route summary and rounded
price but differing in currency.  `_deduplicate_offers`
(`flight_ticker/application/services.py`) keys on
`(provider, route_summary, round(price, 2))` only and silently drops the
second offer, while `_remove_duplicates`
(`application/services/flight_search_service.py`) includes the currency in the
signature and keeps both. -/
theorem dedup_currency_divergence :
    (cx_offer 500).provider = usd_clone.provider ∧
    (cx_offer 500).route_summary = usd_clone.route_summary ∧
    py_round2 (cx_offer 500).price_total = py_round2 usd_clone.price_total ∧
    (cx_offer 500).currency ≠ usd_clone.currency ∧
    deduplicate_offers [cx_offer 500, usd_clone] = [cx_offer 500] ∧
    remove_duplicates [cx_offer 500, usd_clone] = [cx_offer 500, usd_clone] := by
  refine ⟨rfl, rfl, rfl, by decide, by decide, by decide⟩

/-- C9 evaluation: the hub-combination generation followed by the truncation
`list(hub_combinations)[:20]` depends on the enumeration order of the Python
`set` (hash-seed dependent): enumerating the same hub set in source order and
in reversed order — both enumerations of the same set — yields different
truncated lists for the same origin and destination; no sorting is performed
before truncating. -/
theorem hub_truncation_order_dependent :
    MAJOR_HUBS.reverse.Perm MAJOR_HUBS ∧
    limited_hub_combinations MAJOR_HUBS.reverse "GRU" "JFK" 20 ≠
      limited_hub_combinations MAJOR_HUBS "GRU" "JFK" 20 := by
  constructor
  · exact List.reverse_perm MAJOR_HUBS
  · decide

/-- C8 (amended): on an unparsable date string,
`FlightStrategyService.expand_flexible_dates` catches the `ValueError` and
degrades to the raw input as a single-element date list, while
`FlexibleDatesStrategy._expand_dates` has no handler and raises the
`ValueError` (its caller gets an exception, not a one-date fallback). -/
theorem malformed_date_fallback (s : String) (h : parse_iso_date s = none) :
    (∀ days_before days_after : Int,
      expand_flexible_dates s days_before days_after = [s]) ∧
    (∀ days_range : Int, expand_dates s days_range = Except.error "ValueError") := by
  constructor
  · intro db da
    unfold expand_flexible_dates
    rw [h]
  · intro dr
    unfold expand_dates
    rw [h]

/-- Witness for C8 on the unparsable input "not-a-date". -/
theorem malformed_date_fallback_witness :
    parse_iso_date "not-a-date" = none ∧
    expand_flexible_dates "not-a-date" 3 3 = ["not-a-date"] ∧
    expand_dates "not-a-date" 3 = Except.error "ValueError" :=
  ⟨by decide,
   (malformed_date_fallback "not-a-date" (by decide)).1 3 3,
   (malformed_date_fallback "not-a-date" (by decide)).2 3⟩

/-- Counterexample to C8 as stated: the date window expander of the
flexible-dates strategy does not degrade to the single-element raw-input list
on a parse failure — it raises (`Except.error`), returning no date list at
all. -/
theorem malformed_date_counterexample :
    parse_iso_date "not-a-date" = none ∧
    expand_dates "not-a-date" 3 ≠ Except.ok ["not-a-date"] := by
  refine ⟨by decide, ?_⟩
  intro h
  have h2 : expand_dates "not-a-date" 3 = Except.error "ValueError" := by
    unfold expand_dates
    rw [show parse_iso_date "not-a-date" = none from by decide]
  rw [h2] at h
  cases h

/-- Scoring and ranking preserve the number of offers. -/
lemma score_offers_length (l : List FlightOffer) :
    (score_offers l).length = l.length := by
  unfold score_offers
  split
  · rfl
  · rw [List.length_insertionSort]
    unfold scored_offers_list
    rw [List.length_map]

/-- C6 (amended): `total_found` equals the number of offers that survive
deduplication and filtering — the length of the final ranked sequence — and
not the pre-filter aggregate count. -/
theorem search_total_found (strategy_results : List (Option (List FlightOffer)))
    (criteria : SearchCriteria) (now : Int) :
    (search strategy_results criteria now).total_found
      = (apply_filters (deduplicate_offers (collect_strategy_offers strategy_results))
          criteria).length ∧
    (search strategy_results criteria now).total_found
      = (search strategy_results criteria now).offers.length :=
  ⟨score_offers_length _, rfl⟩

unseal Rat.add Rat.mul Rat.inv Rat.sub in
/-- Counterexample to C6 as stated: one strategy returns the same offer twice,
so the pre-filter aggregate count is 2, but the reported `total_found` is the
length of the deduplicated final list, 1. -/
theorem search_total_found_counterexample :
    (collect_strategy_offers [some [cx_offer 500, cx_offer 500]]).length = 2 ∧
    (search [some [cx_offer 500, cx_offer 500]] crit_basic 0).total_found = 1 := by
  refine ⟨rfl, ?_⟩
  show (score_offers (apply_filters (deduplicate_offers
    (collect_strategy_offers [some [cx_offer 500, cx_offer 500]])) crit_basic)).length = 1
  rw [score_offers_length]
  decide

/-- The falsy-aware key of `best_offer` coincides with "absent score counts as
0". -/
lemma best_key_eq_getD (o : FlightOffer) : best_key o = o.ai_score.getD 0 := by
  unfold best_key
  rcases o.ai_score with _ | s
  · rfl
  · show (if s = 0 then 0 else s) = s
    rcases eq_or_ne s 0 with h | h
    · rw [if_pos h, h]
    · rw [if_neg h]

/-- Invariant of the `max` scan: the fold either keeps the seed (and every
candidate key is at most the seed's), or returns the first list element whose
key strictly exceeds the seed's key and every earlier key. -/
lemma foldl_best_spec (l : List FlightOffer) (a : FlightOffer) :
    ∃ r, l.foldl best_step a = r ∧
      ((r = a ∧ ∀ x ∈ l, best_key x ≤ best_key a) ∨
       (∃ pre post, l = pre ++ r :: post ∧ best_key a < best_key r ∧
         (∀ x ∈ pre, best_key x < best_key r) ∧
         (∀ x ∈ post, best_key x ≤ best_key r))) := by
  induction l generalizing a with
  | nil =>
    refine ⟨a, rfl, Or.inl ⟨rfl, ?_⟩⟩
    intro x hx
    cases hx
  | cons x xs ih =>
    obtain ⟨r, hr, hcase⟩ := ih (best_step a x)
    refine ⟨r, hr, ?_⟩
    by_cases hx : best_key a < best_key x
    · have hstep : best_step a x = x := if_pos hx
      rcases hcase with ⟨hra, hall⟩ | ⟨pre, post, hdecomp, hlt, hpre, hpost⟩
      · right
        refine ⟨[], xs, ?_, ?_, ?_, ?_⟩
        · rw [hra, hstep, List.nil_append]
        · rw [hra, hstep]
          exact hx
        · intro y hy
          cases hy
        · intro y hy
          rw [hra, hstep]
          have := hall y hy
          rwa [hstep] at this
      · right
        rw [hstep] at hlt
        refine ⟨x :: pre, post, ?_, hx.trans hlt, ?_, hpost⟩
        · rw [hdecomp, List.cons_append]
        · intro y hy
          rcases List.mem_cons.mp hy with h | h
          · subst h
            exact hlt
          · exact hpre y h
    · have hstep : best_step a x = a := if_neg hx
      have hxa : best_key x ≤ best_key a := not_lt.mp hx
      rcases hcase with ⟨hra, hall⟩ | ⟨pre, post, hdecomp, hlt, hpre, hpost⟩
      · left
        rw [hstep] at hra
        refine ⟨hra, ?_⟩
        intro y hy
        rcases List.mem_cons.mp hy with h | h
        · subst h
          exact hxa
        · have := hall y h
          rwa [hstep] at this
      · right
        rw [hstep] at hlt
        refine ⟨x :: pre, post, ?_, hlt, ?_, hpost⟩
        · rw [hdecomp, List.cons_append]
        · intro y hy
          rcases List.mem_cons.mp hy with h | h
          · subst h
            exact lt_of_le_of_lt hxa hlt
          · exact hpre y h

/-- C7 (amended): for a non-empty offer list, `best_offer` is the FIRST offer
attaining the maximal score (an absent score counting as 0); equal-score ties
are resolved by position, not by lower price. -/
theorem best_offer_spec (res : SearchResult) (h : res.offers ≠ []) :
    ∃ b, res.best_offer = some b ∧
      (∀ o ∈ res.offers, o.ai_score.getD 0 ≤ b.ai_score.getD 0) ∧
      ∃ pre post, res.offers = pre ++ b :: post ∧
        ∀ x ∈ pre, x.ai_score.getD 0 < b.ai_score.getD 0 := by
  rcases hres : res.offers with _ | ⟨h0, t⟩
  · exact absurd hres h
  · obtain ⟨r, hr, hcase⟩ := foldl_best_spec t h0
    have hbest : res.best_offer = some r := by
      unfold SearchResult.best_offer
      rw [hres]
      show some (List.foldl best_step h0 t) = some r
      rw [hr]
    simp only [← best_key_eq_getD]
    rcases hcase with ⟨hra, hall⟩ | ⟨pre, post, hdecomp, hlt, hpre, hpost⟩
    · refine ⟨r, hbest, ?_, [], t, by rw [hra, List.nil_append], ?_⟩
      · intro o ho
        rcases List.mem_cons.mp ho with ho | ho
        · subst ho
          rw [hra]
        · rw [hra]
          exact hall o ho
      · intro x hx
        cases hx
    · refine ⟨r, hbest, ?_, h0 :: pre, post, by rw [hdecomp, List.cons_append], ?_⟩
      · intro o ho
        rcases List.mem_cons.mp ho with ho | ho
        · subst ho
          exact hlt.le
        · rw [hdecomp] at ho
          rcases List.mem_append.mp ho with ho | ho
          · exact (hpre o ho).le
          · rcases List.mem_cons.mp ho with ho | ho
            · subst ho
              exact le_refl _
            · exact hpost o ho
      · intro x hxmem
        rcases List.mem_cons.mp hxmem with hx | hx
        · subst hx
          exact hlt
        · exact hpre x hx

/-- A scored offer: price 200, score 50. -/
def offer_hi_price : FlightOffer :=
  { cx_offer 200 with ai_score := some 50 }

/-- A scored offer: price 100, score 50 — same score, strictly cheaper. -/
def offer_lo_price : FlightOffer :=
  { cx_offer 100 with ai_score := some 50 }

/-- A search result whose offers share the top score, the more expensive one
first. -/
def res_demo : SearchResult :=
  { offers := [offer_hi_price, offer_lo_price],
    search_criteria := crit_basic,
    search_timestamp := 0,
    total_found := 2 }

/-- Witness for C7 at `res_demo`. -/
theorem best_offer_spec_witness :
    res_demo.offers ≠ [] ∧
    (∃ b, res_demo.best_offer = some b ∧
      (∀ o ∈ res_demo.offers, o.ai_score.getD 0 ≤ b.ai_score.getD 0) ∧
      ∃ pre post, res_demo.offers = pre ++ b :: post ∧
        ∀ x ∈ pre, x.ai_score.getD 0 < b.ai_score.getD 0) :=
  ⟨by decide, best_offer_spec res_demo (by decide)⟩

unseal Rat.add Rat.mul Rat.inv Rat.sub in
/-- Counterexample to C7 as stated: in `res_demo` both offers have score 50,
but `best_offer` returns the first — more expensive — one, so the lowest-price
tie-break claimed for equal scores does not happen. -/
theorem best_offer_counterexample :
    res_demo.best_offer = some offer_hi_price ∧
    offer_lo_price ∈ res_demo.offers ∧
    offer_lo_price.ai_score.getD 0 = offer_hi_price.ai_score.getD 0 ∧
    offer_lo_price.price_total < offer_hi_price.price_total := by
  decide

/-- On a scored offer the first sort-key component is the negated score
(`-0.0 = 0.0` covers the falsy-zero branch). -/
lemma sort_key_fst_some (o : FlightOffer) (s : ℚ) (h : o.ai_score = some s) :
    sort_key_fst o = -s := by
  unfold sort_key_fst
  rw [h]
  show (if s = 0 then 0 else -s) = -s
  rcases eq_or_ne s 0 with h0 | h0
  · rw [if_pos h0, h0, neg_zero]
  · rw [if_neg h0]

/-- Every offer produced by the scoring pass carries an assigned score. -/
lemma scored_mem_shape (offers : List FlightOffer) (x : FlightOffer)
    (hx : x ∈ scored_offers_list offers) : ∃ s, x.ai_score = some s := by
  unfold scored_offers_list at hx
  obtain ⟨o, _, rfl⟩ := List.mem_map.mp hx
  exact ⟨_, rfl⟩

/-- The ranking order of the specification: descending computed score (an
absent score counting as 0), ties in ascending total price. -/
def rank_order (a b : FlightOffer) : Prop :=
  b.ai_score.getD 0 < a.ai_score.getD 0 ∨
    (a.ai_score.getD 0 = b.ai_score.getD 0 ∧ a.price_total ≤ b.price_total)

/-- On scored offers the implementation's sort key realizes `rank_order`. -/
lemma ranking_le_imp_rank_order (a b : FlightOffer)
    (ha : ∃ s, a.ai_score = some s) (hb : ∃ s, b.ai_score = some s)
    (hab : ranking_le a b) : rank_order a b := by
  obtain ⟨sa, hsa⟩ := ha
  obtain ⟨sb, hsb⟩ := hb
  have ka := sort_key_fst_some a sa hsa
  have kb := sort_key_fst_some b sb hsb
  unfold ranking_le at hab
  unfold rank_order
  rw [hsa, hsb, Option.getD_some, Option.getD_some]
  rcases hab with hlt | ⟨heq, hp⟩
  · rw [ka, kb] at hlt
    exact Or.inl (neg_lt_neg_iff.mp hlt)
  · rw [ka, kb] at heq
    exact Or.inr ⟨neg_inj.mp heq, hp⟩

/-- C3: ranking a non-empty offer list returns exactly the scored offers (a
permutation of the input with scores assigned), sorted in descending order of
computed score with ascending-price tie-breaks; an absent score is ordered as
score 0. -/
theorem score_offers_ranking (offers : List FlightOffer) (h : offers ≠ []) :
    (score_offers offers).Perm (scored_offers_list offers) ∧
    List.Pairwise rank_order (score_offers offers) := by
  unfold score_offers
  rw [if_neg h]
  constructor
  · exact List.perm_insertionSort ranking_le (scored_offers_list offers)
  · have hs : List.Pairwise ranking_le
        (List.insertionSort ranking_le (scored_offers_list offers)) :=
      List.sorted_insertionSort ranking_le (scored_offers_list offers)
    refine List.Pairwise.imp_of_mem ?_ hs
    intro a b ha hb hab
    have hperm := List.perm_insertionSort ranking_le (scored_offers_list offers)
    exact ranking_le_imp_rank_order a b
      (scored_mem_shape offers a (hperm.mem_iff.mp ha))
      (scored_mem_shape offers b (hperm.mem_iff.mp hb)) hab

/-- Witness for C3 on a two-offer list. -/
theorem score_offers_ranking_witness :
    ([cx_offer 800, cx_offer 1500] : List FlightOffer) ≠ [] ∧
    (score_offers [cx_offer 800, cx_offer 1500]).Perm
      (scored_offers_list [cx_offer 800, cx_offer 1500]) ∧
    List.Pairwise rank_order (score_offers [cx_offer 800, cx_offer 1500]) :=
  ⟨by decide,
   (score_offers_ranking [cx_offer 800, cx_offer 1500] (by decide)).1,
   (score_offers_ranking [cx_offer 800, cx_offer 1500] (by decide)).2⟩
